import Mathlib

/-!
# CTK — `ctkDICOMQueryRetrieveWidget`

A shallow embedding of `Libs/DICOM/Widgets/ctkDICOMQueryRetrieveWidget.cpp`:
the private widget state, `processQuery`, `processRetrieve` and
`onQueryProgressChanged`, followed by the properties of the query/retrieve
orchestration.

Modelling conventions.
* A `QString` is its sequence of UTF-16 code units; `QMap` keeps its entries in
  ascending key order and `operator[]` assignment replaces the value of an
  existing key.
* Objects created with `new` live in a heap (`queryHeap`, `retrieveHeap`), a
  pointer is the address returned by the allocation counter.
* Everything the widget does to its collaborators (progress dialog, logger,
  query and retrieve objects, databases, buttons) is appended to `trace`, in
  program order.
* The collaborators that are not part of this file (`ctkDICOMServerNodeWidget`,
  `ctkDICOMQuery::query`, `ctkDICOMRetrieve::retrieveStudy`,
  `ctkDICOMDatabase::openDatabase`, `QProgressDialog::wasCanceled`) are
  parameters: a run is executed against a description of how they answer.
* The `double`/`float` arithmetic of `onQueryProgressChanged` is carried out in
  exact rational arithmetic; the conversion to `int` truncates toward zero.
-/

namespace CTK

/-- A `QString`, as its sequence of UTF-16 code units.  The order on lists is
lexicographic, which is how `QString::operator<` compares. -/
abbrev QString := List Nat

/-- The code units of an ASCII string literal. -/
def qstr (s : String) : QString := s.toList.map Char.toNat

/-! ## QMap -/

section QMapEntries

variable {K V : Type} [LinearOrder K]

/-- Assignment `QMap::operator[](k) = v` on the ordered entry list: walk to the first key
that is not less than `k`; replace its value if it is `k`, insert before it
otherwise. -/
def insertEntries (k : K) (v : V) : List (K × V) → List (K × V)
  | [] => [(k, v)]
  | (k1, v1) :: t =>
    if k < k1 then (k, v) :: (k1, v1) :: t
    else if k1 < k then (k1, v1) :: insertEntries k v t
    else (k, v) :: t

/-- Lookup of a key in the entry list. -/
def lookupEntries (k : K) : List (K × V) → Option V
  | [] => none
  | (k1, v1) :: t => if k1 = k then some v1 else lookupEntries k t

end QMapEntries

/-- A `QMap<K, V>`: entries with strictly ascending keys. -/
structure QMap (K V : Type) [LinearOrder K] where
  entries : List (K × V)
  ordered : (entries.map Prod.fst).Pairwise (fun a b => a < b)

namespace QMap

variable {K V : Type} [LinearOrder K]

/-- The empty map. -/
def empty : QMap K V := ⟨[], List.Pairwise.nil⟩

/-- Assignment `m[k] = v`.  The keys stay in strictly ascending order. -/
def insert (m : QMap K V) (k : K) (v : V) : QMap K V :=
  ⟨insertEntries k v m.entries, by
    have hmem : ∀ (l : List (K × V)) (x : K),
        x ∈ (insertEntries k v l).map Prod.fst → x = k ∨ x ∈ l.map Prod.fst := by
      intro l
      induction l with
      | nil =>
        intro x hx
        simpa [insertEntries] using hx
      | cons e t ih =>
        intro x hx
        obtain ⟨k1, v1⟩ := e
        simp only [insertEntries] at hx
        split_ifs at hx with h1 h2
        · simp only [List.map_cons, List.mem_cons] at hx ⊢
          tauto
        · simp only [List.map_cons, List.mem_cons] at hx ⊢
          rcases hx with hx | hx
          · exact Or.inr (Or.inl hx)
          · rcases ih x hx with h | h
            · exact Or.inl h
            · exact Or.inr (Or.inr h)
        · simp only [List.map_cons, List.mem_cons] at hx ⊢
          tauto
    have hord : ∀ l : List (K × V), (l.map Prod.fst).Pairwise (fun a b => a < b) →
        ((insertEntries k v l).map Prod.fst).Pairwise (fun a b => a < b) := by
      intro l
      induction l with
      | nil =>
        intro _
        simp [insertEntries]
      | cons e t ih =>
        intro hl
        obtain ⟨k1, v1⟩ := e
        simp only [List.map_cons, List.pairwise_cons] at hl
        obtain ⟨hhd, htl⟩ := hl
        simp only [insertEntries]
        split_ifs with h1 h2
        · simp only [List.map_cons, List.pairwise_cons, List.mem_cons]
          refine ⟨?_, hhd, htl⟩
          rintro x (rfl | hx)
          · exact h1
          · exact lt_trans h1 (hhd x hx)
        · simp only [List.map_cons, List.pairwise_cons]
          refine ⟨?_, ih htl⟩
          intro x hx
          rcases hmem t x hx with rfl | hx
          · exact h2
          · exact hhd x hx
        · have hk : k = k1 := le_antisymm (not_lt.mp h2) (not_lt.mp h1)
          subst hk
          simp only [List.map_cons, List.pairwise_cons]
          exact ⟨hhd, htl⟩
    exact hord m.entries m.ordered⟩

/-- The list `m.keys()`: the keys in ascending order, which is the iteration order. -/
def keys (m : QMap K V) : List K := m.entries.map Prod.fst

/-- The value stored under `k`, if any. -/
def find? (m : QMap K V) (k : K) : Option V := lookupEntries k m.entries

end QMap

/-! ## Objects -/

/-- The part of `ctkDICOMQuery` the widget reads and writes. -/
structure ctkDICOMQuery where
  CallingAETitle : QString
  CalledAETitle : QString
  Host : QString
  Port : Int
  Filters : List (QString × QString)
  StudyInstanceUIDQueried : List QString
deriving DecidableEq, Inhabited

/-- The part of `ctkDICOMRetrieve` the widget writes. -/
structure ctkDICOMRetrieve where
  RetrieveDatabase : Option Nat
  CallingAETitle : QString
  CalledAETitle : QString
  CalledPort : Int
  Host : QString
  MoveDestinationAETitle : QString
  CallingPort : Int
deriving DecidableEq, Inhabited

/-- The `QProgressDialog` of a query run. -/
structure QProgressDialog where
  minimum : Int
  maximum : Int
  value : Int
deriving DecidableEq, Inhabited

/-- What the widget does to its collaborators, in program order. -/
inductive Event where
  | setRetrieveButtonEnabled (b : Bool)
  | openDatabase
  | closeDatabase
  | modelSetDatabase
  | logDebug (msg : QString)
  | logInfo (msg : QString)
  | logError (msg : QString)
  | progressSetValue (v : Int)
  | progressSetLabelText (s : QString)
  | labelSetText (s : QString)
  | query (server : QString) (q : Nat)
  | retrieveStudy (r : Nat) (studyUID : QString)
deriving DecidableEq

/-- The state behind `d_ptr`, together with the two heaps and the trace. -/
structure ctkDICOMQueryRetrieveWidgetPrivate where
  QueriesByServer : QMap QString Nat
  QueriesByStudyUID : QMap QString Nat
  RetrievalsByStudyUID : QMap QString Nat
  RetrieveDatabase : Option Nat
  ProgressDialog : Option QProgressDialog
  CurrentServer : QString
  queryHeap : Nat → ctkDICOMQuery
  nextQuery : Nat
  retrieveHeap : Nat → ctkDICOMRetrieve
  nextRetrieve : Nat
  trace : List Event

/-! ## Collaborators -/

/-- The entries of `ctkDICOMServerNodeWidget::nodeParameters(node)` the widget
reads. -/
structure NodeParameters where
  Name : QString
  AETitle : QString
  Address : QString
  Port : Int
  CheckState : Bool
deriving DecidableEq, Inhabited

/-- The entries of `ctkDICOMServerNodeWidget::parameters()` the widget reads. -/
structure ServerParameters where
  StorageAETitle : QString
  StoragePort : Int
deriving DecidableEq, Inhabited

/-- The interface of `ctkDICOMServerNodeWidget` used by the widget. -/
structure ctkDICOMServerNodeWidget where
  checkedNodes : List QString
  nodeParameters : QString → NodeParameters
  callingAETitle : QString
  parameters : ServerParameters

/-- A signal emitted by a running `ctkDICOMQuery`. -/
inductive QuerySignal where
  | progressText (s : QString)
  | progressValue (v : Int)
deriving DecidableEq

/-- How one call of `ctkDICOMQuery::query` behaves: the signals it emits, what
`studyInstanceUIDQueried()` returns afterwards, and whether it throws. -/
structure QueryOutcome where
  signals : List QuerySignal
  studies : List QString
  throws : Bool
deriving DecidableEq, Inhabited

/-- The surroundings of one `processQuery` run.  `wasCanceled i` is the answer
of `progress.wasCanceled()` at the top of iteration `i`, `outcome i` the
behaviour of the query of iteration `i`. -/
structure QueryRun where
  ServerNodeWidget : ctkDICOMServerNodeWidget
  filters : List (QString × QString)
  openDatabaseThrows : Bool
  lastError : QString
  wasCanceled : Nat → Bool
  outcome : Nat → QueryOutcome
  rowCount : Nat

/-- The surroundings of one `processRetrieve` run.  `throws u` tells whether
`retrieveStudy(u)` throws. -/
structure RetrieveRun where
  ServerNodeWidget : ctkDICOMServerNodeWidget
  throws : QString → Bool

/-! ## Heap and trace primitives -/

/-- Store `v` at address `p`. -/
def write {A : Type} (h : Nat → A) (p : Nat) (v : A) : Nat → A :=
  fun p1 => if p1 = p then v else h p1

namespace ctkDICOMQueryRetrieveWidgetPrivate

/-- Append one event to the trace. -/
def emit (d : ctkDICOMQueryRetrieveWidgetPrivate) (e : Event) :
    ctkDICOMQueryRetrieveWidgetPrivate :=
  { d with trace := d.trace ++ [e] }

/-- Allocation `new ctkDICOMQuery`: the object is placed at the next free address. -/
def newQuery (d : ctkDICOMQueryRetrieveWidgetPrivate) : ctkDICOMQueryRetrieveWidgetPrivate :=
  { d with nextQuery := d.nextQuery + 1, queryHeap := write d.queryHeap d.nextQuery default }

/-- A setter call on the query object at address `p`. -/
def modifyQuery (d : ctkDICOMQueryRetrieveWidgetPrivate) (p : Nat)
    (f : ctkDICOMQuery → ctkDICOMQuery) : ctkDICOMQueryRetrieveWidgetPrivate :=
  { d with queryHeap := write d.queryHeap p (f (d.queryHeap p)) }

/-- Allocation `new ctkDICOMRetrieve`: the object is placed at the next free address. -/
def newRetrieve (d : ctkDICOMQueryRetrieveWidgetPrivate) : ctkDICOMQueryRetrieveWidgetPrivate :=
  { d with nextRetrieve := d.nextRetrieve + 1,
           retrieveHeap := write d.retrieveHeap d.nextRetrieve default }

/-- A setter call on the retrieve object at address `p`. -/
def modifyRetrieve (d : ctkDICOMQueryRetrieveWidgetPrivate) (p : Nat)
    (f : ctkDICOMRetrieve → ctkDICOMRetrieve) : ctkDICOMQueryRetrieveWidgetPrivate :=
  { d with retrieveHeap := write d.retrieveHeap p (f (d.retrieveHeap p)) }

/-- The call `progress.setValue(v)` on the dialog of the running query. -/
def progressSetValue (d : ctkDICOMQueryRetrieveWidgetPrivate) (v : Int) :
    ctkDICOMQueryRetrieveWidgetPrivate :=
  let dialog := d.ProgressDialog.map (fun (dlg : QProgressDialog) => { dlg with value := v })
  ({ d with ProgressDialog := dialog }).emit (Event.progressSetValue v)

end ctkDICOMQueryRetrieveWidgetPrivate

/-! ## The widget -/

namespace ctkDICOMQueryRetrieveWidget

/-- The function `QStringList::indexOf`: the first position of `s`, or `-1`. -/
def indexOf (l : List QString) (s : QString) : Int :=
  if l.indexOf s < l.length then (l.indexOf s : Int) else -1

/-- Conversion of a floating value to `int`: truncation toward zero. -/
def toInt (q : ℚ) : Int := if 0 ≤ q then ⌊q⌋ else ⌈q⌉

/-- The value `(serverIndex + (value / 101.)) * serverProgress` with
`serverProgress = 100. / servers.size()`, line 244-245. -/
def aggregateProgress (size : Nat) (serverIndex value : Int) : ℚ :=
  ((serverIndex : ℚ) + (value : ℚ) / 101) * (100 / (size : ℚ))

/-- The slot `onQueryProgressChanged(int value)`.  The block that centres and resizes the
dialog (lines 246-253) only touches widget geometry and is left out. -/
def onQueryProgressChanged (snw : ctkDICOMServerNodeWidget) (value : Int)
    (d : ctkDICOMQueryRetrieveWidgetPrivate) : ctkDICOMQueryRetrieveWidgetPrivate :=
  match d.ProgressDialog with
  | none => d
  | some _ =>
    let servers := snw.checkedNodes
    let serverIndex := indexOf servers d.CurrentServer
    if serverIndex < 0 then d
    else d.progressSetValue (toInt (aggregateProgress servers.length serverIndex value))

/-- Delivery of one signal of the running query to the slots connected at lines
159-164: `progress(QString)` goes to the label, `progress(int)` to
`onQueryProgressChanged`. -/
def deliver (snw : ctkDICOMServerNodeWidget) (d : ctkDICOMQueryRetrieveWidgetPrivate) :
    QuerySignal → ctkDICOMQueryRetrieveWidgetPrivate
  | QuerySignal.progressText s => d.emit (Event.labelSetText s)
  | QuerySignal.progressValue v => onQueryProgressChanged snw v d

/-- The second inner loop of `processQuery`, lines 179-182. -/
def recordStudies (query : Nat) (studies : List QString)
    (d : ctkDICOMQueryRetrieveWidgetPrivate) : ctkDICOMQueryRetrieveWidgetPrivate :=
  studies.foldl
    (fun (d1 : ctkDICOMQueryRetrieveWidgetPrivate) studyUID =>
      { d1 with QueriesByStudyUID := d1.QueriesByStudyUID.insert studyUID query })
    d

/-- Lines 143-155 of `processQuery`: the query object of the current server is
created, registered in `QueriesByServer` and configured.  It sits at the address
that was `d.nextQuery` before the call.  `Q_ASSERT` on the check state compiles
to nothing in a release build and is not modelled. -/
def createQuery (env : QueryRun) (d : ctkDICOMQueryRetrieveWidgetPrivate) :
    ctkDICOMQueryRetrieveWidgetPrivate :=
  let snw := env.ServerNodeWidget
  let parameters := snw.nodeParameters d.CurrentServer
  let query := d.nextQuery
  let d := d.newQuery
  let d := { d with QueriesByServer := d.QueriesByServer.insert d.CurrentServer query }
  let d := d.modifyQuery query (fun q => { q with CallingAETitle := snw.callingAETitle })
  let d := d.modifyQuery query (fun q => { q with CalledAETitle := parameters.AETitle })
  let d := d.modifyQuery query (fun q => { q with Host := parameters.Address })
  let d := d.modifyQuery query (fun q => { q with Port := parameters.Port })
  d.modifyQuery query (fun q => { q with Filters := env.filters })

/-- One iteration of the server loop of `processQuery` after the cancellation
test, lines 143-182, with `d.CurrentServer` already assigned. -/
def queryBody (env : QueryRun) (i : Nat) (d : ctkDICOMQueryRetrieveWidgetPrivate) :
    ctkDICOMQueryRetrieveWidgetPrivate :=
  let parameters := env.ServerNodeWidget.nodeParameters d.CurrentServer
  let query := d.nextQuery
  let d := createQuery env d
  -- try { connect; query->query(db); disconnect }
  let out := env.outcome i
  let d := d.emit (Event.query d.CurrentServer query)
  let d := out.signals.foldl (deliver env.ServerNodeWidget) d
  let d := d.modifyQuery query (fun q => { q with StudyInstanceUIDQueried := out.studies })
  -- catch (std::exception e)
  let d :=
    if out.throws then
      (d.emit (Event.logError (qstr "Query error: " ++ parameters.Name))).emit
        (Event.progressSetLabelText (qstr "Query error: " ++ parameters.Name))
    else d
  recordStudies query (d.queryHeap query).StudyInstanceUIDQueried d

/-- The server loop of `processQuery`, lines 137-183; `i` counts iterations. -/
def queryLoop (env : QueryRun) :
    Nat → List QString → ctkDICOMQueryRetrieveWidgetPrivate → ctkDICOMQueryRetrieveWidgetPrivate
  | _, [], d => d
  | i, s :: rest, d =>
    let d := { d with CurrentServer := s }
    if env.wasCanceled i then d
    else queryLoop env (i + 1) rest (queryBody env i d)

/-- The slot `processQuery()`. -/
def processQuery (env : QueryRun) (d : ctkDICOMQueryRetrieveWidgetPrivate) :
    ctkDICOMQueryRetrieveWidgetPrivate :=
  let d := d.emit (Event.setRetrieveButtonEnabled false)
  let d := d.emit Event.openDatabase
  if env.openDatabaseThrows then
    (d.emit (Event.logError (qstr "Database error: " ++ env.lastError))).emit Event.closeDatabase
  else
    let progress : QProgressDialog := { minimum := 0, maximum := 100, value := 0 }
    let d := { d with ProgressDialog := some progress }
    let d := d.progressSetValue 0
    let d := queryLoop env 0 env.ServerNodeWidget.checkedNodes d
    let d := d.emit Event.modelSetDatabase
    let d := d.emit (Event.setRetrieveButtonEnabled (decide (env.rowCount ≠ 0)))
    let d := d.progressSetValue progress.maximum
    { d with ProgressDialog := none }

/-- Lines 202-216 of `processRetrieve`: the retrieve object of `studyUID` is
created, registered in `RetrievalsByStudyUID` and configured from the query
object `query` that owns the study and from the storage parameters.  It sits at
the address that was `d.nextRetrieve` before the call. -/
def createRetrieve (serverParameters : ServerParameters) (studyUID : QString) (query : Nat)
    (d : ctkDICOMQueryRetrieveWidgetPrivate) : ctkDICOMQueryRetrieveWidgetPrivate :=
  let d := d.emit (Event.logDebug
    (qstr "need to retrieve " ++ studyUID ++ qstr " from " ++ (d.queryHeap query).Host))
  let retrieve := d.nextRetrieve
  let d := d.newRetrieve
  let d := d.modifyRetrieve retrieve (fun r => { r with RetrieveDatabase := d.RetrieveDatabase })
  let d := { d with RetrievalsByStudyUID := d.RetrievalsByStudyUID.insert studyUID retrieve }
  let d := d.modifyRetrieve retrieve
    (fun r => { r with CallingAETitle := (d.queryHeap query).CallingAETitle })
  let d := d.modifyRetrieve retrieve
    (fun r => { r with CalledAETitle := (d.queryHeap query).CalledAETitle })
  let d := d.modifyRetrieve retrieve (fun r => { r with CalledPort := (d.queryHeap query).Port })
  let d := d.modifyRetrieve retrieve (fun r => { r with Host := (d.queryHeap query).Host })
  -- pull from GUI
  let d := d.modifyRetrieve retrieve
    (fun r => { r with MoveDestinationAETitle := serverParameters.StorageAETitle })
  let d := d.modifyRetrieve retrieve
    (fun r => { r with CallingPort := serverParameters.StoragePort })
  d.emit (Event.logInfo (qstr "Starting to retrieve"))

/-- The loop of `processRetrieve`, lines 200-227, over the keys still to be
visited.  The keys come from `QueriesByStudyUID.keys()` and the map is not
modified by the loop, so the lookup of line 203 always finds its key; the
`none` branch stands for the null pointer `operator[]` would hand out for a key
that is not there. -/
def retrieveLoop (env : RetrieveRun) (serverParameters : ServerParameters) :
    List QString → ctkDICOMQueryRetrieveWidgetPrivate → ctkDICOMQueryRetrieveWidgetPrivate
  | [], d => d
  | studyUID :: rest, d =>
    match d.QueriesByStudyUID.find? studyUID with
    | none => d
    | some query =>
      let retrieve := d.nextRetrieve
      let d := createRetrieve serverParameters studyUID query d
      -- try { retrieve->retrieveStudy(studyUID); }
      let d := d.emit (Event.retrieveStudy retrieve studyUID)
      if env.throws studyUID then d.emit (Event.logError (qstr "Retrieve failed"))
      else retrieveLoop env serverParameters rest (d.emit (Event.logInfo (qstr "Retrieve success")))

/-- The slot `processRetrieve()`. -/
def processRetrieve (env : RetrieveRun) (d : ctkDICOMQueryRetrieveWidgetPrivate) :
    ctkDICOMQueryRetrieveWidgetPrivate :=
  let serverParameters := env.ServerNodeWidget.parameters
  retrieveLoop env serverParameters d.QueriesByStudyUID.keys d

/-- The state left by the constructor: empty maps, no progress dialog. -/
def init : ctkDICOMQueryRetrieveWidgetPrivate :=
  { QueriesByServer := QMap.empty, QueriesByStudyUID := QMap.empty,
    RetrievalsByStudyUID := QMap.empty, RetrieveDatabase := none, ProgressDialog := none,
    CurrentServer := [], queryHeap := fun _ => default, nextQuery := 0,
    retrieveHeap := fun _ => default, nextRetrieve := 0, trace := [] }

/-! ## Reading the trace -/

/-- The `query->query(...)` calls of a trace: query object and the server it
was configured for. -/
def queriesDispatched (t : List Event) : List (Nat × QString) :=
  t.filterMap (fun e => match e with
    | Event.query s q => some (q, s)
    | _ => none)

/-- The values passed to `QProgressDialog::setValue` in a trace. -/
def progressValues (t : List Event) : List Int :=
  t.filterMap (fun e => match e with
    | Event.progressSetValue v => some v
    | _ => none)

/-- What a trace says about retrieves. -/
inductive RetrieveReport where
  | attempted (r : Nat) (studyUID : QString)
  | succeeded
  | failed
deriving DecidableEq

/-- The retrieve calls of a trace, each followed by the "Retrieve success" or
"Retrieve failed" line the logger received for it. -/
def retrieveReports (t : List Event) : List RetrieveReport :=
  t.filterMap (fun e => match e with
    | Event.retrieveStudy r u => some (RetrieveReport.attempted r u)
    | Event.logInfo msg => if msg = qstr "Retrieve success" then some RetrieveReport.succeeded else none
    | Event.logError msg => if msg = qstr "Retrieve failed" then some RetrieveReport.failed else none
    | _ => none)

/-! ## Summaries of the two loops -/

/-- What the server loop has done once it has run the iterations of the servers
`done`, starting at iteration `i` in state `d`, and stopped. -/
structure QueryLoopSpec (env : QueryRun) (i : Nat) (done : List QString)
    (d d1 : ctkDICOMQueryRetrieveWidgetPrivate) : Prop where
  nextQuery : d1.nextQuery = d.nextQuery + done.length
  dispatched : queriesDispatched d1.trace =
    queriesDispatched d.trace ++ done.enumFrom d.nextQuery
  study_keep : ∀ u, (∀ k, k < done.length → u ∉ (env.outcome (i + k)).studies) →
    d1.QueriesByStudyUID.find? u = d.QueriesByStudyUID.find? u
  study_last : ∀ u k, k < done.length → u ∈ (env.outcome (i + k)).studies →
    (∀ j, k < j → j < done.length → u ∉ (env.outcome (i + j)).studies) →
    d1.QueriesByStudyUID.find? u = some (d.nextQuery + k)
  study_some : ∀ u k, k < done.length → u ∈ (env.outcome (i + k)).studies →
    ∃ j, j < done.length ∧ u ∈ (env.outcome (i + j)).studies ∧
      d1.QueriesByStudyUID.find? u = some (d.nextQuery + j)
  study_entries : ∀ e, e ∈ d1.QueriesByStudyUID.entries →
    e ∈ d.QueriesByStudyUID.entries ∨
      ∃ k, k < done.length ∧ e.2 = d.nextQuery + k ∧ e.1 ∈ (env.outcome (i + k)).studies
  server_keep : ∀ s, s ∉ done → d1.QueriesByServer.find? s = d.QueriesByServer.find? s
  server_last : ∀ s k, done[k]? = some s → (∀ j, k < j → done[j]? ≠ some s) →
    d1.QueriesByServer.find? s = some (d.nextQuery + k)
  server_some : ∀ s, s ∈ done →
    ∃ j, done[j]? = some s ∧ d1.QueriesByServer.find? s = some (d.nextQuery + j)
  server_entries : ∀ e, e ∈ d1.QueriesByServer.entries →
    e ∈ d.QueriesByServer.entries ∨ ∃ k, done[k]? = some e.1 ∧ e.2 = d.nextQuery + k
  heap_new : ∀ s k, done[k]? = some s →
    d1.queryHeap (d.nextQuery + k) =
      { CallingAETitle := env.ServerNodeWidget.callingAETitle,
        CalledAETitle := (env.ServerNodeWidget.nodeParameters s).AETitle,
        Host := (env.ServerNodeWidget.nodeParameters s).Address,
        Port := (env.ServerNodeWidget.nodeParameters s).Port,
        Filters := env.filters,
        StudyInstanceUIDQueried := (env.outcome (i + k)).studies }
  heap_old : ∀ p, p < d.nextQuery → d1.queryHeap p = d.queryHeap p
  retrievals : d1.RetrievalsByStudyUID = d.RetrievalsByStudyUID

/-- What the retrieve loop has done after the studies `ok`, all retrieved. -/
structure RetrievePrefixSpec (ok : List QString)
    (d d1 : ctkDICOMQueryRetrieveWidgetPrivate) : Prop where
  owners : d1.QueriesByStudyUID = d.QueriesByStudyUID
  queryHeap : d1.queryHeap = d.queryHeap
  database : d1.RetrieveDatabase = d.RetrieveDatabase
  nextRetrieve : d1.nextRetrieve = d.nextRetrieve + ok.length
  reports : retrieveReports d1.trace =
    retrieveReports d.trace ++
      (ok.enumFrom d.nextRetrieve).flatMap
        (fun p => [RetrieveReport.attempted p.1 p.2, RetrieveReport.succeeded])

end ctkDICOMQueryRetrieveWidget

end CTK

/-! ## Example configurations -/

namespace CTK

namespace Example

open ctkDICOMQueryRetrieveWidget

/-- A server list in which every node `s` has title `s_AE`, address
`s.example.org` and port 104. -/
def serverNodes (checked : List QString) : ctkDICOMServerNodeWidget :=
  { checkedNodes := checked,
    nodeParameters := fun s =>
      { Name := s, AETitle := s ++ qstr "_AE", Address := s ++ qstr ".example.org",
        Port := 104, CheckState := true },
    callingAETitle := qstr "CTK",
    parameters := { StorageAETitle := qstr "CTKSTORE", StoragePort := 11112 } }

/-- A query run over `checked` in which the staging store opens. -/
def queryRun (checked : List QString) (outcome : Nat → QueryOutcome)
    (wasCanceled : Nat → Bool) : QueryRun :=
  { ServerNodeWidget := serverNodes checked, filters := [], openDatabaseThrows := false,
    lastError := [], wasCanceled := wasCanceled, outcome := outcome, rowCount := 2 }

/-- Servers A, B, C: A discovers `s1`, the query of B throws with its query
object reporting `reportedByB`, C discovers `s2`. -/
def threeServers (reportedByB : List QString) (wasCanceled : Nat → Bool) : QueryRun :=
  queryRun [qstr "A", qstr "B", qstr "C"]
    (fun i =>
      if i = 0 then { signals := [], studies := [qstr "s1"], throws := false }
      else if i = 1 then { signals := [], studies := reportedByB, throws := true }
      else { signals := [], studies := [qstr "s2"], throws := false })
    wasCanceled

/-- Servers A, B, C: A and B both report `s1`, C reports `s2`. -/
def sharedStudy : QueryRun :=
  queryRun [qstr "A", qstr "B", qstr "C"]
    (fun i =>
      if i = 2 then { signals := [], studies := [qstr "s2"], throws := false }
      else { signals := [], studies := [qstr "s1"], throws := false })
    (fun _ => false)

/-- A run over the single server `s`, which discovers the study `u`. -/
def singleServer (s u : QString) : QueryRun :=
  queryRun [s] (fun _ => { signals := [], studies := [u], throws := false }) (fun _ => false)

/-- A run in which the staging store does not open. -/
def storeFails : QueryRun :=
  { threeServers [] (fun _ => false) with openDatabaseThrows := true,
                                          lastError := qstr "unable to open database" }

/-- A retrieve run in which exactly the retrieve of `failing` throws. -/
def retrieveRun (failing : List QString) : RetrieveRun :=
  { ServerNodeWidget := serverNodes [], throws := fun u => decide (u ∈ failing) }

/-- A widget whose study->owner map has the keys `s1`, `s2`, `s3`: the state
after a run over A, B, C in which the failed query of B still reported `s3`. -/
def threeStudies : ctkDICOMQueryRetrieveWidgetPrivate :=
  processQuery (threeServers [qstr "s3"] (fun _ => false)) init

end Example

end CTK

/-! ## Lemmas on QMap -/

namespace CTK

section QMapLemmas

variable {K V : Type} [LinearOrder K]

theorem lookupEntries_insertEntries (k : K) (v : V) (l : List (K × V)) (x : K) :
    lookupEntries x (insertEntries k v l) = if x = k then some v else lookupEntries x l := by
  induction l with
  | nil =>
    by_cases hx : x = k
    · simp [insertEntries, lookupEntries, hx]
    · have hx1 : ¬ k = x := fun h => hx h.symm
      simp [insertEntries, lookupEntries, hx, hx1]
  | cons e t ih =>
    obtain ⟨k1, v1⟩ := e
    by_cases hx : x = k
    · subst hx
      simp only [insertEntries, if_true]
      by_cases h1 : x < k1
      · simp [h1, lookupEntries]
      · by_cases h2 : k1 < x
        · have hk : ¬ k1 = x := ne_of_lt h2
          simp [h1, h2, lookupEntries, hk, ih]
        · simp [h1, h2, lookupEntries]
    · have hx1 : ¬ k = x := fun h => hx h.symm
      simp only [insertEntries, hx, if_false]
      by_cases h1 : k < k1
      · simp [h1, lookupEntries, hx1]
      · by_cases h2 : k1 < k
        · simp [h1, h2, lookupEntries, ih, hx]
        · have hk : k = k1 := le_antisymm (not_lt.mp h2) (not_lt.mp h1)
          subst hk
          simp [lookupEntries, hx1]

theorem mem_insertEntries (k : K) (v : V) (l : List (K × V)) (e : K × V)
    (he : e ∈ insertEntries k v l) : e = (k, v) ∨ e ∈ l := by
  induction l with
  | nil => simpa [insertEntries] using he
  | cons e1 t ih =>
    obtain ⟨k1, v1⟩ := e1
    simp only [insertEntries] at he
    split_ifs at he with h1 h2
    · simpa using he
    · simp only [List.mem_cons] at he ⊢
      rcases he with he | he
      · exact Or.inr (Or.inl he)
      · rcases ih he with h | h
        · exact Or.inl h
        · exact Or.inr (Or.inr h)
    · simp only [List.mem_cons] at he ⊢
      tauto

theorem lookupEntries_mem (k : K) (v : V) (l : List (K × V))
    (h : lookupEntries k l = some v) : (k, v) ∈ l := by
  induction l with
  | nil => simp [lookupEntries] at h
  | cons e t ih =>
    obtain ⟨k1, v1⟩ := e
    simp only [lookupEntries] at h
    split_ifs at h with h1
    · simp only [Option.some.injEq] at h
      simp [h1, h]
    · exact List.mem_cons_of_mem _ (ih h)

theorem lookupEntries_of_mem_keys (k : K) (l : List (K × V))
    (h : k ∈ l.map Prod.fst) : ∃ v, lookupEntries k l = some v := by
  induction l with
  | nil => simp at h
  | cons e t ih =>
    obtain ⟨k1, v1⟩ := e
    simp only [lookupEntries]
    by_cases h1 : k1 = k
    · exact ⟨v1, by simp [h1]⟩
    · simp only [List.map_cons, List.mem_cons] at h
      rcases h with h | h
      · exact absurd h.symm h1
      · simpa [h1] using ih h

namespace QMap

theorem find?_insert (m : QMap K V) (k : K) (v : V) (x : K) :
    (m.insert k v).find? x = if x = k then some v else m.find? x :=
  lookupEntries_insertEntries k v m.entries x

theorem mem_entries_insert (m : QMap K V) (k : K) (v : V) (e : K × V)
    (he : e ∈ (m.insert k v).entries) : e = (k, v) ∨ e ∈ m.entries :=
  mem_insertEntries k v m.entries e he

theorem mem_entries_of_find? (m : QMap K V) (k : K) (v : V) (h : m.find? k = some v) :
    (k, v) ∈ m.entries :=
  lookupEntries_mem k v m.entries h

theorem find?_of_mem_keys (m : QMap K V) (k : K) (h : k ∈ m.keys) : ∃ v, m.find? k = some v :=
  lookupEntries_of_mem_keys k m.entries h

theorem keys_nodup (m : QMap K V) : m.keys.Nodup :=
  m.ordered.imp (fun h => ne_of_lt h)

theorem entry_unique (m : QMap K V) (k : K) (v : V) (h : m.find? k = some v) :
    ∀ e, e ∈ m.entries → e.1 = k → e = (k, v) := by
  intro e he hk
  by_contra hne
  have hp : m.entries.Pairwise (fun a b => a.1 ≠ b.1) :=
    (List.pairwise_map.mp m.ordered).imp (fun h => ne_of_lt h)
  exact hp.forall (fun _ _ h => h.symm) he (m.mem_entries_of_find? k v h) hne hk

theorem existsUnique_entry (m : QMap K V) (k : K) (v : V) (h : m.find? k = some v) :
    ∃! e, e ∈ m.entries ∧ e.1 = k :=
  ⟨(k, v), ⟨m.mem_entries_of_find? k v h, rfl⟩, fun e he => m.entry_unique k v h e he.1 he.2⟩

end QMap

end QMapLemmas

end CTK

/-! ## Lemmas on the query run -/

namespace CTK

namespace ctkDICOMQueryRetrieveWidget

open ctkDICOMQueryRetrieveWidgetPrivate

theorem queriesDispatched_append (t1 t2 : List Event) :
    queriesDispatched (t1 ++ t2) = queriesDispatched t1 ++ queriesDispatched t2 := by
  simp [queriesDispatched, List.filterMap_append]

theorem recordStudies_eq (q : Nat) (studies : List QString)
    (d : ctkDICOMQueryRetrieveWidgetPrivate) :
    recordStudies q studies d =
      { d with QueriesByStudyUID :=
          studies.foldl (fun m u => QMap.insert m u q) d.QueriesByStudyUID } := by
  induction studies generalizing d with
  | nil => rfl
  | cons u t ih =>
    simp only [recordStudies, List.foldl_cons] at ih ⊢
    rw [ih]

theorem find?_foldl_insert (q : Nat) (studies : List QString) (m : QMap QString Nat)
    (x : QString) :
    (studies.foldl (fun m u => QMap.insert m u q) m).find? x =
      if x ∈ studies then some q else m.find? x := by
  induction studies generalizing m with
  | nil => simp
  | cons u t ih =>
    rw [List.foldl_cons, ih, QMap.find?_insert]
    by_cases h1 : x ∈ t
    · simp [h1]
    · by_cases h2 : x = u
      · simp [h2]
      · simp [h1, h2]

theorem mem_entries_foldl_insert (q : Nat) (studies : List QString) (m : QMap QString Nat)
    (e : QString × Nat)
    (he : e ∈ (studies.foldl (fun m u => QMap.insert m u q) m).entries) :
    (e.2 = q ∧ e.1 ∈ studies) ∨ e ∈ m.entries := by
  induction studies generalizing m with
  | nil => exact Or.inr he
  | cons u t ih =>
    rw [List.foldl_cons] at he
    rcases ih _ he with ⟨h1, h2⟩ | h
    · exact Or.inl ⟨h1, List.mem_cons_of_mem _ h2⟩
    · rcases QMap.mem_entries_insert m u q e h with h | h
      · subst h
        exact Or.inl ⟨rfl, List.mem_cons_self _ _⟩
      · exact Or.inr h

theorem onQueryProgressChanged_eq (snw : ctkDICOMServerNodeWidget) (v : Int)
    (d : ctkDICOMQueryRetrieveWidgetPrivate) :
    ∃ dlg t, queriesDispatched t = [] ∧
      onQueryProgressChanged snw v d = { d with ProgressDialog := dlg, trace := d.trace ++ t } := by
  unfold onQueryProgressChanged
  cases hd : d.ProgressDialog with
  | none => exact ⟨none, [], rfl, by simp [hd.symm]⟩
  | some dlg =>
    simp only
    split_ifs with h
    · exact ⟨some dlg, [], rfl, by simp [hd.symm]⟩
    · exact ⟨_, [Event.progressSetValue _], rfl, rfl⟩

theorem deliver_eq (snw : ctkDICOMServerNodeWidget) (sig : QuerySignal)
    (d : ctkDICOMQueryRetrieveWidgetPrivate) :
    ∃ dlg t, queriesDispatched t = [] ∧
      deliver snw d sig = { d with ProgressDialog := dlg, trace := d.trace ++ t } := by
  cases sig with
  | progressText s => exact ⟨d.ProgressDialog, [Event.labelSetText s], rfl, rfl⟩
  | progressValue v => exact onQueryProgressChanged_eq snw v d

theorem deliver_foldl_eq (snw : ctkDICOMServerNodeWidget) (signals : List QuerySignal)
    (d : ctkDICOMQueryRetrieveWidgetPrivate) :
    ∃ dlg t, queriesDispatched t = [] ∧
      signals.foldl (deliver snw) d = { d with ProgressDialog := dlg, trace := d.trace ++ t } := by
  induction signals generalizing d with
  | nil => exact ⟨d.ProgressDialog, [], rfl, by simp⟩
  | cons sig rest ih =>
    obtain ⟨dlg1, t1, h1, e1⟩ := deliver_eq snw sig d
    obtain ⟨dlg2, t2, h2, e2⟩ := ih (deliver snw d sig)
    refine ⟨dlg2, t1 ++ t2, ?_, ?_⟩
    · rw [queriesDispatched_append, h1, h2]; rfl
    · rw [List.foldl_cons, e2, e1]
      simp

theorem write_write {A : Type} (h : Nat → A) (p : Nat) (a b : A) :
    write (write h p a) p b = write h p b := by
  funext x
  by_cases hx : x = p <;> simp [write, hx]

theorem write_same {A : Type} (h : Nat → A) (p : Nat) (a : A) : write h p a p = a := by
  simp [write]

theorem write_other {A : Type} (h : Nat → A) (p x : Nat) (a : A) (hx : x ≠ p) :
    write h p a x = h x := by
  simp [write, hx]

/-- The query object `createQuery` leaves at the fresh address for server `s`,
and `queryBody` after the query of iteration `i` has run. -/
theorem createQuery_eq (env : QueryRun) (d : ctkDICOMQueryRetrieveWidgetPrivate) :
    createQuery env d =
      { d with
        QueriesByServer := d.QueriesByServer.insert d.CurrentServer d.nextQuery,
        queryHeap := write d.queryHeap d.nextQuery
          { CallingAETitle := env.ServerNodeWidget.callingAETitle,
            CalledAETitle := (env.ServerNodeWidget.nodeParameters d.CurrentServer).AETitle,
            Host := (env.ServerNodeWidget.nodeParameters d.CurrentServer).Address,
            Port := (env.ServerNodeWidget.nodeParameters d.CurrentServer).Port,
            Filters := env.filters,
            StudyInstanceUIDQueried := [] },
        nextQuery := d.nextQuery + 1 } := by
  simp only [createQuery, newQuery, modifyQuery, write_write, write_same]
  rfl

theorem queryBody_eq (env : QueryRun) (i : Nat) (d : ctkDICOMQueryRetrieveWidgetPrivate) :
    ∃ dlg t, queriesDispatched t = [(d.nextQuery, d.CurrentServer)] ∧
      queryBody env i d =
        { d with
          QueriesByServer := d.QueriesByServer.insert d.CurrentServer d.nextQuery,
          QueriesByStudyUID := (env.outcome i).studies.foldl
            (fun m u => QMap.insert m u d.nextQuery) d.QueriesByStudyUID,
          ProgressDialog := dlg,
          queryHeap := write d.queryHeap d.nextQuery
            { CallingAETitle := env.ServerNodeWidget.callingAETitle,
              CalledAETitle := (env.ServerNodeWidget.nodeParameters d.CurrentServer).AETitle,
              Host := (env.ServerNodeWidget.nodeParameters d.CurrentServer).Address,
              Port := (env.ServerNodeWidget.nodeParameters d.CurrentServer).Port,
              Filters := env.filters,
              StudyInstanceUIDQueried := (env.outcome i).studies },
          nextQuery := d.nextQuery + 1,
          trace := d.trace ++ t } := by
  obtain ⟨dlg, t, ht, he⟩ := deliver_foldl_eq env.ServerNodeWidget (env.outcome i).signals
    ((createQuery env d).emit (Event.query (createQuery env d).CurrentServer d.nextQuery))
  by_cases hthrow : (env.outcome i).throws = true
  · refine ⟨dlg, [Event.query d.CurrentServer d.nextQuery] ++ t ++
      [Event.logError (qstr "Query error: " ++
          (env.ServerNodeWidget.nodeParameters d.CurrentServer).Name),
        Event.progressSetLabelText (qstr "Query error: " ++
          (env.ServerNodeWidget.nodeParameters d.CurrentServer).Name)], ?_, ?_⟩
    · simp only [queriesDispatched_append, ht]
      rfl
    · simp only [queryBody, he, hthrow, if_true, recordStudies_eq]
      simp only [createQuery_eq, emit, modifyQuery, write_write, write_same,
        List.append_assoc, List.singleton_append, List.cons_append, List.nil_append]
  · refine ⟨dlg, [Event.query d.CurrentServer d.nextQuery] ++ t, ?_, ?_⟩
    · simp only [queriesDispatched_append, ht]
      rfl
    · simp only [queryBody, he, hthrow, if_false, recordStudies_eq]
      simp only [createQuery_eq, emit, modifyQuery, write_write, write_same,
        List.append_assoc, List.singleton_append, List.cons_append, List.nil_append]
      simp [write_same]

end ctkDICOMQueryRetrieveWidget

end CTK

namespace CTK

namespace ctkDICOMQueryRetrieveWidget

open ctkDICOMQueryRetrieveWidgetPrivate

theorem queryLoop_stop (env : QueryRun) (i : Nat) (rest : List QString)
    (d : ctkDICOMQueryRetrieveWidgetPrivate)
    (hstop : rest = [] ∨ env.wasCanceled i = true) :
    ∃ cs, queryLoop env i rest d = { d with CurrentServer := cs } := by
  cases rest with
  | nil => exact ⟨d.CurrentServer, rfl⟩
  | cons s r =>
    rcases hstop with h | h
    · cases h
    · exact ⟨s, by simp [queryLoop, h]⟩

theorem queryLoop_cons_run (env : QueryRun) (i : Nat) (s : QString) (l : List QString)
    (d : ctkDICOMQueryRetrieveWidgetPrivate) (h : env.wasCanceled i = false) :
    queryLoop env i (s :: l) d =
      queryLoop env (i + 1) l (queryBody env i { d with CurrentServer := s }) := by
  simp [queryLoop, h]

theorem queryLoop_spec (env : QueryRun) (done rest : List QString) :
    ∀ (i : Nat) (d : ctkDICOMQueryRetrieveWidgetPrivate),
      (∀ k, k < done.length → env.wasCanceled (i + k) = false) →
      (rest = [] ∨ env.wasCanceled (i + done.length) = true) →
      QueryLoopSpec env i done d (queryLoop env i (done ++ rest) d) := by
  induction done with
  | nil =>
    intro i d _ hstop
    obtain ⟨cs, hcs⟩ := queryLoop_stop env i rest d (by simpa using hstop)
    rw [List.nil_append, hcs]
    exact
      { nextQuery := rfl
        dispatched := by simp
        study_keep := fun _ _ => rfl
        study_last := fun _ k hk => absurd hk (Nat.not_lt_zero k)
        study_some := fun _ k hk => absurd hk (Nat.not_lt_zero k)
        study_entries := fun _ he => Or.inl he
        server_keep := fun _ _ => rfl
        server_some := fun _ hs => by simp at hs
        server_last := fun _ k hk => by simp at hk
        server_entries := fun _ he => Or.inl he
        heap_new := fun _ k hk => by simp at hk
        heap_old := fun _ _ => rfl
        retrievals := rfl }
  | cons s done1 ih =>
    intro i d hrun hstop
    have h0 : env.wasCanceled i = false := by simpa using hrun 0 (by simp)
    have hrun1 : ∀ k, k < done1.length → env.wasCanceled (i + 1 + k) = false := by
      intro k hk
      have := hrun (k + 1) (by simpa using hk)
      rwa [show i + 1 + k = i + (k + 1) by omega]
    have hstop1 : rest = [] ∨ env.wasCanceled (i + 1 + done1.length) = true := by
      rcases hstop with h | h
      · exact Or.inl h
      · right
        rwa [show i + 1 + done1.length = i + (s :: done1).length by simp; omega]
    rw [List.cons_append, queryLoop_cons_run env i s _ d h0]
    obtain ⟨dlg, t, ht, hbody⟩ := queryBody_eq env i { d with CurrentServer := s }
    have IH := ih (i + 1) (queryBody env i { d with CurrentServer := s }) hrun1 hstop1
    generalize queryLoop env (i + 1) (done1 ++ rest)
      (queryBody env i { d with CurrentServer := s }) = d2 at IH ⊢
    rw [hbody] at IH
    have hshift : ∀ k, i + 1 + k = i + (k + 1) := fun k => by omega
    refine
      { nextQuery := ?_, dispatched := ?_, study_keep := ?_, study_last := ?_,
        study_some := ?_, study_entries := ?_, server_keep := ?_, server_last := ?_,
        server_some := ?_, server_entries := ?_, heap_new := ?_, heap_old := ?_,
        retrievals := ?_ }
    · have := IH.nextQuery
      simp only [List.length_cons] at this ⊢
      omega
    · have := IH.dispatched
      simp only [queriesDispatched_append, ht] at this
      rw [this]
      simp [List.enumFrom_cons]
    · intro u hu
      have h1 := IH.study_keep u (fun k hk => by
        rw [hshift]; exact hu (k + 1) (by simpa using hk))
      have h2 : u ∉ (env.outcome i).studies := by simpa using hu 0 (by simp)
      rw [h1]
      simp only [find?_foldl_insert, h2, if_false]
    · intro u k hk hu hlast
      cases k with
      | zero =>
        have h1 := IH.study_keep u (fun j hj => by
          rw [hshift]; exact hlast (j + 1) (by omega) (by simpa using hj))
        rw [h1]
        simp only [find?_foldl_insert]
        rw [if_pos (by simpa using hu)]
        rfl
      | succ k1 =>
        have h1 := IH.study_last u k1 (by simpa using hk) (by rw [hshift]; exact hu)
          (fun j hj1 hj2 => by
            rw [hshift]; exact hlast (j + 1) (by omega) (by simpa using hj2))
        rw [h1]
        simp only [Option.some.injEq]
        omega
    · intro u k hk hu
      have hlater : ∀ j, j < done1.length → u ∈ (env.outcome (i + 1 + j)).studies →
          ∃ j, j < (s :: done1).length ∧ u ∈ (env.outcome (i + j)).studies ∧
            d2.QueriesByStudyUID.find? u = some (d.nextQuery + j) := by
        intro j hj huj
        obtain ⟨j1, hj1, hu1, hf1⟩ := IH.study_some u j hj huj
        refine ⟨j1 + 1, by simpa using hj1, by rw [← hshift]; exact hu1, ?_⟩
        rw [hf1]
        simp only [Option.some.injEq]
        omega
      cases k with
      | zero =>
        by_cases hex : ∃ j, j < done1.length ∧ u ∈ (env.outcome (i + 1 + j)).studies
        · obtain ⟨j, hj, huj⟩ := hex
          exact hlater j hj huj
        · have hnone : ∀ j, j < done1.length → u ∉ (env.outcome (i + 1 + j)).studies :=
            fun j hj huj => hex ⟨j, hj, huj⟩
          refine ⟨0, by simp, hu, ?_⟩
          rw [IH.study_keep u hnone]
          simp only [find?_foldl_insert]
          rw [if_pos (by simpa using hu)]
          rfl
      | succ k1 =>
        exact hlater k1 (by simpa using hk) (by rw [hshift]; exact hu)
    · intro e he
      rcases IH.study_entries e he with h | ⟨k, hk, h1, h2⟩
      · rcases mem_entries_foldl_insert _ _ _ e h with ⟨h1, h2⟩ | h
        · exact Or.inr ⟨0, by simp, by simpa using h1, by simpa using h2⟩
        · exact Or.inl h
      · refine Or.inr ⟨k + 1, by simpa using hk, ?_, ?_⟩
        · simp only at h1
          omega
        · rw [← hshift]; exact h2
    · intro x hx
      have hx1 : x ∉ done1 := fun h => hx (List.mem_cons_of_mem _ h)
      have hx2 : x ≠ s := fun h => hx (by simp [h])
      rw [IH.server_keep x hx1]
      simp only [QMap.find?_insert, hx2, if_false]
    · intro x k hk hlast
      cases k with
      | zero =>
        have hxs : s = x := by simpa using hk
        subst hxs
        have hx1 : s ∉ done1 := by
          intro hmem
          obtain ⟨j, hj1, hj2⟩ := List.getElem_of_mem hmem
          exact hlast (j + 1) (by omega) (by simp [List.getElem?_eq_getElem hj1, hj2])
        rw [IH.server_keep s hx1]
        simp only [QMap.find?_insert, if_true]
        rfl
      | succ k1 =>
        have h1 := IH.server_last x k1 (by simpa using hk)
          (fun j hj => by simpa using hlast (j + 1) (by omega))
        rw [h1]
        simp only [Option.some.injEq]
        omega
    · intro x hx
      by_cases hx1 : x ∈ done1
      · obtain ⟨j, hj, hf⟩ := IH.server_some x hx1
        refine ⟨j + 1, by simpa using hj, ?_⟩
        rw [hf]
        simp only [Option.some.injEq]
        omega
      · have hxs : x = s := by
          rcases List.mem_cons.mp hx with h | h
          · exact h
          · exact absurd h hx1
        subst hxs
        refine ⟨0, by simp, ?_⟩
        rw [IH.server_keep x hx1]
        simp only [QMap.find?_insert, if_true]
        rfl
    · intro e he
      rcases IH.server_entries e he with h | ⟨k, hk, h1⟩
      · rcases QMap.mem_entries_insert _ _ _ e h with h | h
        · refine Or.inr ⟨0, ?_, ?_⟩
          · simp [h]
          · simp [h]
        · exact Or.inl h
      · refine Or.inr ⟨k + 1, by simpa using hk, ?_⟩
        simp only at h1
        omega
    · intro x k hk
      cases k with
      | zero =>
        have hxs : s = x := by simpa using hk
        subst hxs
        have := IH.heap_old d.nextQuery (by simp)
        simp only [write_same] at this
        simpa using this
      | succ k1 =>
        have := IH.heap_new x k1 (by simpa using hk)
        simp only at this
        rw [show d.nextQuery + (k1 + 1) = d.nextQuery + 1 + k1 by omega, this, hshift]
    · intro p hp
      have := IH.heap_old p (by simp only; omega)
      have hne : p ≠ d.nextQuery := by omega
      rw [this]
      simp [write, hne]
    · exact IH.retrievals

/-- The server loop seen from `processQuery`: the statements around the loop
add no query call and touch neither the maps nor the heap. -/
theorem processQuery_spec (env : QueryRun) (d : ctkDICOMQueryRetrieveWidgetPrivate)
    (done rest : List QString)
    (hopen : env.openDatabaseThrows = false)
    (hsplit : env.ServerNodeWidget.checkedNodes = done ++ rest)
    (hrun : ∀ k, k < done.length → env.wasCanceled k = false)
    (hstop : rest = [] ∨ env.wasCanceled done.length = true) :
    QueryLoopSpec env 0 done d (processQuery env d) := by
  have hloop := fun d0 => queryLoop_spec env done rest 0 d0
    (fun k hk => by simpa using hrun k hk) (by simpa using hstop)
  have L := hloop ((({ (d.emit (Event.setRetrieveButtonEnabled false)).emit Event.openDatabase
    with ProgressDialog := some { minimum := 0, maximum := 100, value := 0 } } :
      ctkDICOMQueryRetrieveWidgetPrivate)).progressSetValue 0)
  simp only [processQuery, hopen, hsplit]
  generalize queryLoop env 0 (done ++ rest) _ = d2 at L ⊢
  exact
    { nextQuery := L.nextQuery
      dispatched := by
        have := L.dispatched
        simp only [progressSetValue, emit, queriesDispatched_append] at this ⊢
        simpa [queriesDispatched] using this
      study_keep := L.study_keep
      study_last := L.study_last
      study_some := L.study_some
      study_entries := L.study_entries
      server_keep := L.server_keep
      server_last := L.server_last
      server_some := L.server_some
      server_entries := L.server_entries
      heap_new := L.heap_new
      heap_old := L.heap_old
      retrievals := L.retrievals }

end ctkDICOMQueryRetrieveWidget

end CTK

/-! ## Lemmas on the retrieve run -/

namespace CTK

namespace ctkDICOMQueryRetrieveWidget

open ctkDICOMQueryRetrieveWidgetPrivate

theorem retrieveReports_append (t1 t2 : List Event) :
    retrieveReports (t1 ++ t2) = retrieveReports t1 ++ retrieveReports t2 := by
  simp [retrieveReports, List.filterMap_append]

theorem createRetrieve_eq (sp : ServerParameters) (u : QString) (q : Nat)
    (d : ctkDICOMQueryRetrieveWidgetPrivate) :
    createRetrieve sp u q d =
      { d with
        RetrievalsByStudyUID := d.RetrievalsByStudyUID.insert u d.nextRetrieve,
        retrieveHeap := write d.retrieveHeap d.nextRetrieve
          { RetrieveDatabase := d.RetrieveDatabase,
            CallingAETitle := (d.queryHeap q).CallingAETitle,
            CalledAETitle := (d.queryHeap q).CalledAETitle,
            CalledPort := (d.queryHeap q).Port,
            Host := (d.queryHeap q).Host,
            MoveDestinationAETitle := sp.StorageAETitle,
            CallingPort := sp.StoragePort },
        nextRetrieve := d.nextRetrieve + 1,
        trace := d.trace ++
          [Event.logDebug (qstr "need to retrieve " ++ u ++ qstr " from " ++ (d.queryHeap q).Host),
            Event.logInfo (qstr "Starting to retrieve")] } := by
  simp only [createRetrieve, newRetrieve, modifyRetrieve, emit, write_write, write_same,
    List.append_assoc, List.singleton_append]

/-- The state after the iteration of `u`, owned by the query object `q`, when
`retrieveStudy` returns. -/
theorem retrieveLoop_cons_ok (env : RetrieveRun) (sp : ServerParameters) (u : QString)
    (l : List QString) (d : ctkDICOMQueryRetrieveWidgetPrivate) (q : Nat)
    (hq : d.QueriesByStudyUID.find? u = some q) (hok : env.throws u = false) :
    retrieveLoop env sp (u :: l) d =
      retrieveLoop env sp l
        (((createRetrieve sp u q d).emit (Event.retrieveStudy d.nextRetrieve u)).emit
          (Event.logInfo (qstr "Retrieve success"))) := by
  simp [retrieveLoop, hq, hok]

theorem retrieveLoop_cons_fail (env : RetrieveRun) (sp : ServerParameters) (u : QString)
    (l : List QString) (d : ctkDICOMQueryRetrieveWidgetPrivate) (q : Nat)
    (hq : d.QueriesByStudyUID.find? u = some q) (hfail : env.throws u = true) :
    retrieveLoop env sp (u :: l) d =
      ((createRetrieve sp u q d).emit (Event.retrieveStudy d.nextRetrieve u)).emit
        (Event.logError (qstr "Retrieve failed")) := by
  simp [retrieveLoop, hq, hfail]

theorem retrieveLoop_retrieved (env : RetrieveRun) (sp : ServerParameters)
    (ok rest : List QString) :
    ∀ d : ctkDICOMQueryRetrieveWidgetPrivate,
      (∀ u, u ∈ ok → env.throws u = false ∧ ∃ q, d.QueriesByStudyUID.find? u = some q) →
      ∃ d1, retrieveLoop env sp (ok ++ rest) d = retrieveLoop env sp rest d1 ∧
        RetrievePrefixSpec ok d d1 := by
  induction ok with
  | nil =>
    intro d _
    exact ⟨d, rfl, ⟨rfl, rfl, rfl, rfl, by simp⟩⟩
  | cons u ok1 ih =>
    intro d h
    obtain ⟨hok, q, hq⟩ := h u (List.mem_cons_self _ _)
    rw [List.cons_append, retrieveLoop_cons_ok env sp u _ d q hq hok]
    have hstep := createRetrieve_eq sp u q d
    obtain ⟨d1, hd1, S⟩ := ih
      (((createRetrieve sp u q d).emit (Event.retrieveStudy d.nextRetrieve u)).emit
        (Event.logInfo (qstr "Retrieve success")))
      (fun x hx => by
        have := h x (List.mem_cons_of_mem _ hx)
        simpa [hstep, emit] using this)
    refine ⟨d1, hd1, ?_⟩
    have h1 := S.owners
    have h2 := S.queryHeap
    have h3 := S.database
    have h4 := S.nextRetrieve
    have h5 := S.reports
    simp only [hstep, emit] at h1 h2 h3 h4 h5
    refine ⟨h1, h2, h3, ?_, ?_⟩
    · rw [h4, List.length_cons]; omega
    · rw [h5]
      simp only [retrieveReports_append, List.append_assoc, List.enumFrom_cons,
        List.flatMap_cons]
      rfl

/-- What any further run of the loop leaves alone. -/
theorem retrieveLoop_frame (env : RetrieveRun) (sp : ServerParameters) (l : List QString) :
    ∀ d : ctkDICOMQueryRetrieveWidgetPrivate,
      (∀ p, p < d.nextRetrieve →
          (retrieveLoop env sp l d).retrieveHeap p = d.retrieveHeap p) ∧
        (∃ t, (retrieveLoop env sp l d).trace = d.trace ++ t) ∧
        (∀ x, x ∉ l → (retrieveLoop env sp l d).RetrievalsByStudyUID.find? x =
          d.RetrievalsByStudyUID.find? x) := by
  induction l with
  | nil =>
    intro d
    exact ⟨fun _ _ => rfl, ⟨[], by simp [retrieveLoop]⟩, fun _ _ => rfl⟩
  | cons u l1 ih =>
    intro d
    cases hq : d.QueriesByStudyUID.find? u with
    | none =>
      have hnone : retrieveLoop env sp (u :: l1) d = d := by simp [retrieveLoop, hq]
      rw [hnone]
      exact ⟨fun _ _ => rfl, ⟨[], by simp⟩, fun _ _ => rfl⟩
    | some q =>
      have hstep := createRetrieve_eq sp u q d
      cases hthrow : env.throws u with
      | true =>
        rw [retrieveLoop_cons_fail env sp u l1 d q hq hthrow, hstep]
        refine ⟨?_, ?_, ?_⟩
        · intro p hp
          have hne : p ≠ d.nextRetrieve := by omega
          simp [emit, write, hne]
        · simp only [emit, List.append_assoc]
          exact ⟨_, rfl⟩
        · intro x hx
          have hne : x ≠ u := fun h => hx (by simp [h])
          simp [emit, QMap.find?_insert, hne]
      | false =>
        rw [retrieveLoop_cons_ok env sp u l1 d q hq hthrow]
        obtain ⟨f1, ⟨t, f2⟩, f3⟩ := ih
          (((createRetrieve sp u q d).emit (Event.retrieveStudy d.nextRetrieve u)).emit
            (Event.logInfo (qstr "Retrieve success")))
        rw [hstep] at f1 f2 f3
        rw [hstep]
        refine ⟨?_, ?_, ?_⟩
        · intro p hp
          have hne : p ≠ d.nextRetrieve := by omega
          rw [f1 p (by simp only [emit]; omega)]
          simp [emit, write, hne]
        · rw [f2]
          simp only [emit, List.append_assoc]
          exact ⟨_, rfl⟩
        · intro x hx
          have hne : x ≠ u := fun h => hx (by simp [h])
          have hx1 : x ∉ l1 := fun h => hx (List.mem_cons_of_mem _ h)
          rw [f3 x hx1]
          simp [emit, QMap.find?_insert, hne]

end ctkDICOMQueryRetrieveWidget

end CTK

/-! ## Properties of `processQuery` -/

namespace CTK

namespace ctkDICOMQueryRetrieveWidget

open ctkDICOMQueryRetrieveWidgetPrivate

/-- C1. Query-phase failure isolation.  When the staging store opens and
cancellation is never requested, the queries dispatched by the run are exactly
one per checked server, in sequence order (the query object of server number
`i` is the `i`-th one allocated), whatever queries throw; and every study
identifier reported by a server whose query succeeded is a key of
`QueriesByStudyUID` when the run ends. -/
theorem processQuery_failure_isolation (env : QueryRun)
    (d : ctkDICOMQueryRetrieveWidgetPrivate)
    (hopen : env.openDatabaseThrows = false)
    (hnocancel : ∀ i, i < env.ServerNodeWidget.checkedNodes.length → env.wasCanceled i = false) :
    queriesDispatched (processQuery env d).trace =
        queriesDispatched d.trace ++ env.ServerNodeWidget.checkedNodes.enumFrom d.nextQuery ∧
      ∀ i, i < env.ServerNodeWidget.checkedNodes.length → (env.outcome i).throws = false →
        ∀ u, u ∈ (env.outcome i).studies → u ∈ (processQuery env d).QueriesByStudyUID.keys := by
  have S := processQuery_spec env d env.ServerNodeWidget.checkedNodes [] hopen (by simp)
    hnocancel (Or.inl rfl)
  refine ⟨S.dispatched, ?_⟩
  intro i hi _ u hu
  obtain ⟨j, _, _, hf⟩ := S.study_some u i hi (by simpa using hu)
  exact List.mem_map_of_mem Prod.fst (QMap.mem_entries_of_find? _ _ _ hf)

/-- C1 on servers A, B, C where the query of B throws. -/
theorem processQuery_failure_isolation_witness :
    (Example.threeServers [] (fun _ => false)).openDatabaseThrows = false ∧
      (queriesDispatched (processQuery (Example.threeServers [] (fun _ => false)) init).trace =
          queriesDispatched init.trace ++
            (Example.threeServers [] (fun _ => false)).ServerNodeWidget.checkedNodes.enumFrom
              init.nextQuery ∧
        ∀ i, i < (Example.threeServers [] (fun _ => false)).ServerNodeWidget.checkedNodes.length →
          ((Example.threeServers [] (fun _ => false)).outcome i).throws = false →
          ∀ u, u ∈ ((Example.threeServers [] (fun _ => false)).outcome i).studies →
            u ∈ (processQuery (Example.threeServers [] (fun _ => false)) init).QueriesByStudyUID.keys) :=
  ⟨rfl, processQuery_failure_isolation (Example.threeServers [] (fun _ => false)) init rfl
    (fun _ _ => rfl)⟩

/-- C2. Last-writer-wins study ownership.  In a run that queried the servers
`done` (the checked servers up to the end of the list or up to a cancellation),
let server number `k` be the last one to report `u`, and let `i` be any earlier
server, such as an earlier reporter of `u`.  Then after the run
`QueriesByStudyUID` has exactly one entry for `u`, its owner is the query object
created for server `k`, and it is not the one created for server `i`. -/
theorem processQuery_last_writer_wins (env : QueryRun)
    (d : ctkDICOMQueryRetrieveWidgetPrivate) (done rest : List QString)
    (hopen : env.openDatabaseThrows = false)
    (hsplit : env.ServerNodeWidget.checkedNodes = done ++ rest)
    (hrun : ∀ j, j < done.length → env.wasCanceled j = false)
    (hstop : rest = [] ∨ env.wasCanceled done.length = true)
    (u : QString) (i k : Nat) (hik : i < k) (hk : k < done.length)
    (hku : u ∈ (env.outcome k).studies)
    (hlast : ∀ j, k < j → j < done.length → u ∉ (env.outcome j).studies) :
    (∃! e, e ∈ (processQuery env d).QueriesByStudyUID.entries ∧ e.1 = u) ∧
      (processQuery env d).QueriesByStudyUID.find? u = some (d.nextQuery + k) ∧
      (processQuery env d).QueriesByStudyUID.find? u ≠ some (d.nextQuery + i) ∧
      (∀ s, done[k]? = some s →
        (d.nextQuery + k, s) ∈ queriesDispatched (processQuery env d).trace) := by
  have S := processQuery_spec env d done rest hopen hsplit hrun hstop
  have hf : (processQuery env d).QueriesByStudyUID.find? u = some (d.nextQuery + k) :=
    S.study_last u k hk (by simpa using hku) (fun j hj1 hj2 => by simpa using hlast j hj1 hj2)
  refine ⟨QMap.existsUnique_entry _ _ _ hf, hf, ?_, ?_⟩
  · rw [hf]
    simp only [ne_eq, Option.some.injEq]
    omega
  · intro s hs
    rw [S.dispatched]
    refine List.mem_append_right _ ?_
    rw [List.mem_iff_getElem?]
    exact ⟨k, by simp [List.getElem?_enumFrom, hs]⟩

/-- C2 on servers A, B, C where A and B both report `s1`: B owns it. -/
theorem processQuery_last_writer_wins_witness :
    (∃! e, e ∈ (processQuery Example.sharedStudy init).QueriesByStudyUID.entries ∧
        e.1 = qstr "s1") ∧
      (processQuery Example.sharedStudy init).QueriesByStudyUID.find? (qstr "s1") =
        some (init.nextQuery + 1) ∧
      (processQuery Example.sharedStudy init).QueriesByStudyUID.find? (qstr "s1") ≠
        some (init.nextQuery + 0) ∧
      (∀ s, [qstr "A", qstr "B", qstr "C"][1]? = some s →
        (init.nextQuery + 1, s) ∈
          queriesDispatched (processQuery Example.sharedStudy init).trace) :=
  processQuery_last_writer_wins Example.sharedStudy init [qstr "A", qstr "B", qstr "C"] []
    rfl rfl (fun _ _ => rfl) (Or.inl rfl) (qstr "s1") 0 1 (by decide) (by decide)
    (by decide)
    (fun j h1 h2 => by
      have hj : j = 2 := by
        simp only [List.length_cons, List.length_nil] at h2
        omega
      subst hj
      decide)

/-- C5. Pre-dispatch cancellation.  On a run that starts with an empty
`QueriesByStudyUID`, with `K + 1` below the number of checked servers, if
`wasCanceled()` is false at the top of iterations `0..K` and true at the top of
iteration `K + 1`, then the queries dispatched are those of servers `0..K`
only, and every entry of `QueriesByStudyUID` after the run is owned by the query
object of one of the servers `0..K`, which reported it. -/
theorem processQuery_cancellation (env : QueryRun)
    (d : ctkDICOMQueryRetrieveWidgetPrivate) (K : Nat)
    (hopen : env.openDatabaseThrows = false)
    (hempty : d.QueriesByStudyUID.entries = [])
    (hK : K + 1 < env.ServerNodeWidget.checkedNodes.length)
    (hrun : ∀ i, i ≤ K → env.wasCanceled i = false)
    (hcancel : env.wasCanceled (K + 1) = true) :
    queriesDispatched (processQuery env d).trace =
        queriesDispatched d.trace ++
          (env.ServerNodeWidget.checkedNodes.take (K + 1)).enumFrom d.nextQuery ∧
      ∀ e, e ∈ (processQuery env d).QueriesByStudyUID.entries →
        ∃ k, k ≤ K ∧ e.2 = d.nextQuery + k ∧ e.1 ∈ (env.outcome k).studies := by
  have hlen : (env.ServerNodeWidget.checkedNodes.take (K + 1)).length = K + 1 := by
    rw [List.length_take]
    omega
  have S := processQuery_spec env d (env.ServerNodeWidget.checkedNodes.take (K + 1))
    (env.ServerNodeWidget.checkedNodes.drop (K + 1)) hopen
    (List.take_append_drop _ _).symm
    (fun k hk => hrun k (by omega)) (Or.inr (by rw [hlen]; exact hcancel))
  refine ⟨S.dispatched, ?_⟩
  intro e he
  rcases S.study_entries e he with h | ⟨k, hk, h1, h2⟩
  · rw [hempty] at h
    cases h
  · exact ⟨k, by omega, h1, by simpa using h2⟩

/-- C5 on servers A, B, C with cancellation requested after the query of A. -/
theorem processQuery_cancellation_witness :
    (Example.threeServers [] (fun i => decide (1 ≤ i))).wasCanceled (0 + 1) = true ∧
      (queriesDispatched
            (processQuery (Example.threeServers [] (fun i => decide (1 ≤ i))) init).trace =
          queriesDispatched init.trace ++
            ((Example.threeServers [] (fun i => decide (1 ≤ i))).ServerNodeWidget.checkedNodes.take
              (0 + 1)).enumFrom init.nextQuery ∧
        ∀ e, e ∈ (processQuery (Example.threeServers [] (fun i => decide (1 ≤ i)))
              init).QueriesByStudyUID.entries →
          ∃ k, k ≤ 0 ∧ e.2 = init.nextQuery + k ∧
            e.1 ∈ ((Example.threeServers [] (fun i => decide (1 ≤ i))).outcome k).studies) :=
  ⟨rfl, processQuery_cancellation (Example.threeServers [] (fun i => decide (1 ≤ i))) init 0
    rfl rfl (by decide)
    (fun i hi => by
      have h0 : i = 0 := by omega
      subst h0
      rfl)
    rfl⟩

end ctkDICOMQueryRetrieveWidget

end CTK

namespace CTK

namespace ctkDICOMQueryRetrieveWidget

open ctkDICOMQueryRetrieveWidgetPrivate

/-- C7, as the claim states it, fails: after a first run over server A, which
discovers `s1`, and a second run over server B, which discovers `s2`, both maps
still hold the query object of the first run (address 0, allocated before the
second run started at address 1), and a following `processRetrieve` retrieves
`s1`. -/
theorem processQuery_keeps_earlier_run :
    (processQuery (Example.singleServer (qstr "A") (qstr "s1")) init).nextQuery = 1 ∧
      (processQuery (Example.singleServer (qstr "B") (qstr "s2"))
          (processQuery (Example.singleServer (qstr "A") (qstr "s1"))
            init)).QueriesByStudyUID.entries =
        [(qstr "s1", 0), (qstr "s2", 1)] ∧
      (processQuery (Example.singleServer (qstr "B") (qstr "s2"))
          (processQuery (Example.singleServer (qstr "A") (qstr "s1"))
            init)).QueriesByServer.entries =
        [(qstr "A", 0), (qstr "B", 1)] ∧
      retrieveReports
          (processRetrieve (Example.retrieveRun [])
            (processQuery (Example.singleServer (qstr "B") (qstr "s2"))
              (processQuery (Example.singleServer (qstr "A") (qstr "s1")) init))).trace =
        [RetrieveReport.attempted 0 (qstr "s1"), RetrieveReport.succeeded,
          RetrieveReport.attempted 1 (qstr "s2"), RetrieveReport.succeeded] := by
  decide

/-- C7, amended.  `processQuery` never clears `QueriesByServer` or
`QueriesByStudyUID`.  For two consecutive runs, the second one having queried
the servers `done`: the query objects of the second run are those at the
addresses from `nextQuery` as the first run left it; every server queried in
the second run maps to a query object of the second run; every study identifier
reported in the second run maps to a query object of the second run; the entry
of a server not queried in the second run and the entry of a study identifier
not reported in the second run are as the first run left them. -/
theorem processQuery_second_run (env1 env2 : QueryRun)
    (d : ctkDICOMQueryRetrieveWidgetPrivate) (done rest : List QString)
    (hopen : env2.openDatabaseThrows = false)
    (hsplit : env2.ServerNodeWidget.checkedNodes = done ++ rest)
    (hrun : ∀ j, j < done.length → env2.wasCanceled j = false)
    (hstop : rest = [] ∨ env2.wasCanceled done.length = true) :
    (processQuery env2 (processQuery env1 d)).nextQuery =
        (processQuery env1 d).nextQuery + done.length ∧
      (∀ s, s ∈ done → ∃ j, j < done.length ∧
        (processQuery env2 (processQuery env1 d)).QueriesByServer.find? s =
          some ((processQuery env1 d).nextQuery + j)) ∧
      (∀ k, k < done.length → ∀ u, u ∈ (env2.outcome k).studies → ∃ j, j < done.length ∧
        (processQuery env2 (processQuery env1 d)).QueriesByStudyUID.find? u =
          some ((processQuery env1 d).nextQuery + j)) ∧
      (∀ s, s ∉ done →
        (processQuery env2 (processQuery env1 d)).QueriesByServer.find? s =
          (processQuery env1 d).QueriesByServer.find? s) ∧
      (∀ u, (∀ k, k < done.length → u ∉ (env2.outcome k).studies) →
        (processQuery env2 (processQuery env1 d)).QueriesByStudyUID.find? u =
          (processQuery env1 d).QueriesByStudyUID.find? u) := by
  have S := processQuery_spec env2 (processQuery env1 d) done rest hopen hsplit hrun hstop
  refine ⟨S.nextQuery, ?_, ?_, S.server_keep, ?_⟩
  · intro s hs
    obtain ⟨j, hj, hf⟩ := S.server_some s hs
    have hlt : j < done.length := by
      by_contra hge
      rw [List.getElem?_eq_none (by omega)] at hj
      cases hj
    exact ⟨j, hlt, hf⟩
  · intro k hk u hu
    obtain ⟨j, hj, _, hf⟩ := S.study_some u k hk (by simpa using hu)
    exact ⟨j, hj, hf⟩
  · intro u hu
    exact S.study_keep u (fun k hk => by simpa using hu k hk)

/-- C7, amended, on a first run over A and a second run over B. -/
theorem processQuery_second_run_witness :
    (processQuery (Example.singleServer (qstr "B") (qstr "s2"))
          (processQuery (Example.singleServer (qstr "A") (qstr "s1")) init)).nextQuery =
        (processQuery (Example.singleServer (qstr "A") (qstr "s1")) init).nextQuery +
          [qstr "B"].length ∧
      (∀ s, s ∈ [qstr "B"] → ∃ j, j < [qstr "B"].length ∧
        (processQuery (Example.singleServer (qstr "B") (qstr "s2"))
            (processQuery (Example.singleServer (qstr "A") (qstr "s1"))
              init)).QueriesByServer.find? s =
          some ((processQuery (Example.singleServer (qstr "A") (qstr "s1")) init).nextQuery + j)) ∧
      (∀ k, k < [qstr "B"].length →
        ∀ u, u ∈ ((Example.singleServer (qstr "B") (qstr "s2")).outcome k).studies →
          ∃ j, j < [qstr "B"].length ∧
            (processQuery (Example.singleServer (qstr "B") (qstr "s2"))
                (processQuery (Example.singleServer (qstr "A") (qstr "s1"))
                  init)).QueriesByStudyUID.find? u =
              some ((processQuery (Example.singleServer (qstr "A") (qstr "s1")) init).nextQuery
                + j)) ∧
      (∀ s, s ∉ [qstr "B"] →
        (processQuery (Example.singleServer (qstr "B") (qstr "s2"))
            (processQuery (Example.singleServer (qstr "A") (qstr "s1"))
              init)).QueriesByServer.find? s =
          (processQuery (Example.singleServer (qstr "A") (qstr "s1")) init).QueriesByServer.find?
            s) ∧
      (∀ u, (∀ k, k < [qstr "B"].length →
          u ∉ ((Example.singleServer (qstr "B") (qstr "s2")).outcome k).studies) →
        (processQuery (Example.singleServer (qstr "B") (qstr "s2"))
            (processQuery (Example.singleServer (qstr "A") (qstr "s1"))
              init)).QueriesByStudyUID.find? u =
          (processQuery (Example.singleServer (qstr "A") (qstr "s1"))
            init).QueriesByStudyUID.find? u) :=
  processQuery_second_run (Example.singleServer (qstr "A") (qstr "s1"))
    (Example.singleServer (qstr "B") (qstr "s2")) init [qstr "B"] [] rfl rfl
    (fun _ _ => rfl) (Or.inl rfl)

/-- C9. Final progress.  Whenever the staging store opens, the last thing the
run does to its collaborators is `progress.setValue(100)`: it comes after every
query call of the run, whether the loop ran to the end, queries threw or the
loop was left on cancellation, and it is the last value the dialog is given. -/
theorem processQuery_final_progress (env : QueryRun)
    (d : ctkDICOMQueryRetrieveWidgetPrivate)
    (hopen : env.openDatabaseThrows = false) :
    (∃ t, (processQuery env d).trace = t ++ [Event.progressSetValue 100] ∧
        queriesDispatched t = queriesDispatched (processQuery env d).trace) ∧
      (progressValues (processQuery env d).trace).getLast? = some 100 := by
  have hne : ¬ env.openDatabaseThrows = true := by simp [hopen]
  simp only [processQuery]
  rw [if_neg hne]
  generalize queryLoop env 0 _ _ = d1
  refine ⟨⟨d1.trace ++ [Event.modelSetDatabase,
      Event.setRetrieveButtonEnabled (decide (env.rowCount ≠ 0))], ?_, ?_⟩, ?_⟩
  · simp only [progressSetValue, emit, List.append_assoc, List.singleton_append,
      List.cons_append, List.nil_append]
  · simp only [progressSetValue, emit, queriesDispatched_append]
    simp [queriesDispatched]
  · simp only [progressSetValue, emit, progressValues, List.filterMap_append]
    simp

/-- C9 on a run over A, B, C that is cancelled after the query of A. -/
theorem processQuery_final_progress_witness :
    (Example.threeServers [] (fun i => decide (1 ≤ i))).openDatabaseThrows = false ∧
      ((∃ t, (processQuery (Example.threeServers [] (fun i => decide (1 ≤ i))) init).trace =
            t ++ [Event.progressSetValue 100] ∧
          queriesDispatched t =
            queriesDispatched
              (processQuery (Example.threeServers [] (fun i => decide (1 ≤ i))) init).trace) ∧
        (progressValues
          (processQuery (Example.threeServers [] (fun i => decide (1 ≤ i))) init).trace).getLast? =
            some 100) :=
  ⟨rfl, processQuery_final_progress (Example.threeServers [] (fun i => decide (1 ≤ i))) init rfl⟩

/-- C10. Staging-store open failure.  If opening the staging store throws, the
run does nothing but disable the retrieve button, log the database error and
close the database: no query is dispatched, no query object is created, and
`QueriesByServer`, `QueriesByStudyUID` and the query heap are as before the
call. -/
theorem processQuery_store_failure (env : QueryRun)
    (d : ctkDICOMQueryRetrieveWidgetPrivate)
    (hfail : env.openDatabaseThrows = true) :
    (processQuery env d).trace =
        d.trace ++ [Event.setRetrieveButtonEnabled false, Event.openDatabase,
          Event.logError (qstr "Database error: " ++ env.lastError), Event.closeDatabase] ∧
      queriesDispatched (processQuery env d).trace = queriesDispatched d.trace ∧
      (processQuery env d).nextQuery = d.nextQuery ∧
      (processQuery env d).queryHeap = d.queryHeap ∧
      (processQuery env d).QueriesByServer = d.QueriesByServer ∧
      (processQuery env d).QueriesByStudyUID = d.QueriesByStudyUID := by
  have h : processQuery env d =
      (((d.emit (Event.setRetrieveButtonEnabled false)).emit Event.openDatabase).emit
        (Event.logError (qstr "Database error: " ++ env.lastError))).emit Event.closeDatabase := by
    simp only [processQuery]
    rw [if_pos hfail]
  rw [h]
  refine ⟨?_, ?_, rfl, rfl, rfl, rfl⟩
  · simp [emit]
  · simp only [emit, queriesDispatched_append]
    simp [queriesDispatched]

/-- C10 on a widget that already holds the results of an earlier run. -/
theorem processQuery_store_failure_witness :
    Example.storeFails.openDatabaseThrows = true ∧
      ((processQuery Example.storeFails Example.threeStudies).trace =
          Example.threeStudies.trace ++ [Event.setRetrieveButtonEnabled false, Event.openDatabase,
            Event.logError (qstr "Database error: " ++ Example.storeFails.lastError),
            Event.closeDatabase] ∧
        queriesDispatched (processQuery Example.storeFails Example.threeStudies).trace =
          queriesDispatched Example.threeStudies.trace ∧
        (processQuery Example.storeFails Example.threeStudies).nextQuery =
          Example.threeStudies.nextQuery ∧
        (processQuery Example.storeFails Example.threeStudies).queryHeap =
          Example.threeStudies.queryHeap ∧
        (processQuery Example.storeFails Example.threeStudies).QueriesByServer =
          Example.threeStudies.QueriesByServer ∧
        (processQuery Example.storeFails Example.threeStudies).QueriesByStudyUID =
          Example.threeStudies.QueriesByStudyUID) :=
  ⟨rfl, processQuery_store_failure Example.storeFails Example.threeStudies rfl⟩

end ctkDICOMQueryRetrieveWidget

end CTK

/-! ## Properties of `processRetrieve` -/

namespace CTK

namespace ctkDICOMQueryRetrieveWidget

open ctkDICOMQueryRetrieveWidgetPrivate

/-- The retrieve loop up to and including the call of `retrieveStudy` for `u`,
when every study before `u` in key order is retrieved. -/
theorem processRetrieve_reach (env : RetrieveRun) (d : ctkDICOMQueryRetrieveWidgetPrivate)
    (pre post : List QString) (u : QString)
    (hkeys : d.QueriesByStudyUID.keys = pre ++ u :: post)
    (hpre : ∀ s, s ∈ pre → env.throws s = false) :
    ∃ q d1, d.QueriesByStudyUID.find? u = some q ∧ d1.QueriesByStudyUID.find? u = some q ∧
      RetrievePrefixSpec pre d d1 ∧
      processRetrieve env d =
        retrieveLoop env env.ServerNodeWidget.parameters (u :: post) d1 := by
  have hmem : ∀ s, s ∈ pre ++ u :: post → ∃ q, d.QueriesByStudyUID.find? s = some q :=
    fun s hs => QMap.find?_of_mem_keys _ s (by rw [hkeys]; exact hs)
  obtain ⟨q, hq⟩ := hmem u (by simp)
  obtain ⟨d1, hd1, S⟩ := retrieveLoop_retrieved env env.ServerNodeWidget.parameters pre
    (u :: post) d (fun s hs => ⟨hpre s hs, hmem s (by simp [hs])⟩)
  refine ⟨q, d1, hq, by rw [S.owners]; exact hq, S, ?_⟩
  simp only [processRetrieve, hkeys]
  exact hd1

/-- C3. Retrieve-phase fail-fast.  Studies are attempted in the key order of
`QueriesByStudyUID`.  If the retrieve of `J` is the first to throw, `pre` being
the keys before `J` and `post` the keys after it, then what the run reports is:
for each study of `pre`, in order, a retrieve call followed by "Retrieve
success"; then the retrieve call for `J` followed by "Retrieve failed"; and
nothing more, so no study of `post` is attempted and the run ends on the
failure report. -/
theorem processRetrieve_fail_fast (env : RetrieveRun) (d : ctkDICOMQueryRetrieveWidgetPrivate)
    (pre post : List QString) (J : QString)
    (hkeys : d.QueriesByStudyUID.keys = pre ++ J :: post)
    (hpre : ∀ s, s ∈ pre → env.throws s = false)
    (hJ : env.throws J = true) :
    retrieveReports (processRetrieve env d).trace =
      retrieveReports d.trace ++
        (pre.enumFrom d.nextRetrieve).flatMap
          (fun p => [RetrieveReport.attempted p.1 p.2, RetrieveReport.succeeded]) ++
        [RetrieveReport.attempted (d.nextRetrieve + pre.length) J, RetrieveReport.failed] := by
  obtain ⟨q, d1, _, hq1, S, hloop⟩ := processRetrieve_reach env d pre post J hkeys hpre
  rw [hloop, retrieveLoop_cons_fail env _ J post d1 q hq1 hJ, createRetrieve_eq]
  simp only [emit, retrieveReports_append, S.reports, S.nextRetrieve, List.append_assoc]
  rfl

/-- C3 on the batch `s1`, `s2`, `s3` where the retrieve of `s2` throws. -/
theorem processRetrieve_fail_fast_witness :
    Example.threeStudies.QueriesByStudyUID.keys = [qstr "s1"] ++ qstr "s2" :: [qstr "s3"] ∧
      (Example.retrieveRun [qstr "s2"]).throws (qstr "s2") = true ∧
      retrieveReports (processRetrieve (Example.retrieveRun [qstr "s2"])
          Example.threeStudies).trace =
        retrieveReports Example.threeStudies.trace ++
          ([qstr "s1"].enumFrom Example.threeStudies.nextRetrieve).flatMap
            (fun p => [RetrieveReport.attempted p.1 p.2, RetrieveReport.succeeded]) ++
          [RetrieveReport.attempted (Example.threeStudies.nextRetrieve + [qstr "s1"].length)
            (qstr "s2"), RetrieveReport.failed] :=
  ⟨by decide, by decide,
    processRetrieve_fail_fast (Example.retrieveRun [qstr "s2"]) Example.threeStudies
      [qstr "s1"] [qstr "s3"] (qstr "s2") (by decide)
      (fun s hs => by
        have h1 : s = qstr "s1" := by simpa using hs
        subst h1
        decide)
      (by decide)⟩

/-- C4. Retrieve connection parameters.  Let `u` be a key of
`QueriesByStudyUID` that the loop reaches (every key before it is retrieved),
and `q` its owner.  The retrieve object built for `u`, the one `retrieveStudy`
is called on and that `RetrievalsByStudyUID` records for `u`, has calling title,
called title, host and called port equal to those of the query object `q`, and
move-destination title and calling port equal to `StorageAETitle` and
`StoragePort` of the server node widget.  Hence, when the state comes from a
`processQuery` run in which `q` was created for server `s`, these four are the
calling title of the server node widget and the title, address and port of
`s`. -/
theorem processRetrieve_connection_parameters (env : RetrieveRun)
    (d : ctkDICOMQueryRetrieveWidgetPrivate) (pre post : List QString) (u : QString)
    (hkeys : d.QueriesByStudyUID.keys = pre ++ u :: post)
    (hpre : ∀ s, s ∈ pre → env.throws s = false) :
    ∃ q, d.QueriesByStudyUID.find? u = some q ∧
      RetrieveReport.attempted (d.nextRetrieve + pre.length) u ∈
        retrieveReports (processRetrieve env d).trace ∧
      (processRetrieve env d).RetrievalsByStudyUID.find? u = some (d.nextRetrieve + pre.length) ∧
      (processRetrieve env d).retrieveHeap (d.nextRetrieve + pre.length) =
        { RetrieveDatabase := d.RetrieveDatabase,
          CallingAETitle := (d.queryHeap q).CallingAETitle,
          CalledAETitle := (d.queryHeap q).CalledAETitle,
          CalledPort := (d.queryHeap q).Port,
          Host := (d.queryHeap q).Host,
          MoveDestinationAETitle := env.ServerNodeWidget.parameters.StorageAETitle,
          CallingPort := env.ServerNodeWidget.parameters.StoragePort } ∧
      ∀ (envQ : QueryRun) (d0 : ctkDICOMQueryRetrieveWidgetPrivate) (done rest : List QString)
        (k : Nat) (s : QString),
        d = processQuery envQ d0 → envQ.openDatabaseThrows = false →
        envQ.ServerNodeWidget.checkedNodes = done ++ rest →
        (∀ j, j < done.length → envQ.wasCanceled j = false) →
        (rest = [] ∨ envQ.wasCanceled done.length = true) →
        done[k]? = some s → q = d0.nextQuery + k →
        (d.queryHeap q).CallingAETitle = envQ.ServerNodeWidget.callingAETitle ∧
          (d.queryHeap q).CalledAETitle = (envQ.ServerNodeWidget.nodeParameters s).AETitle ∧
          (d.queryHeap q).Host = (envQ.ServerNodeWidget.nodeParameters s).Address ∧
          (d.queryHeap q).Port = (envQ.ServerNodeWidget.nodeParameters s).Port := by
  obtain ⟨q, d1, hq, hq1, S, hloop⟩ := processRetrieve_reach env d pre post u hkeys hpre
  have hnodup : (pre ++ u :: post).Nodup := hkeys ▸ d.QueriesByStudyUID.keys_nodup
  have hupost : u ∉ post := by
    have := (List.nodup_append.mp hnodup).2.1
    exact (List.nodup_cons.mp this).1
  have hstep := createRetrieve_eq env.ServerNodeWidget.parameters u q d1
  -- the state right after the call of `retrieveStudy` for `u`
  have hfinal : ∃ t,
      (processRetrieve env d).trace =
        ((createRetrieve env.ServerNodeWidget.parameters u q d1).emit
          (Event.retrieveStudy d1.nextRetrieve u)).trace ++ t ∧
      (processRetrieve env d).retrieveHeap d1.nextRetrieve =
        (createRetrieve env.ServerNodeWidget.parameters u q d1).retrieveHeap d1.nextRetrieve ∧
      (processRetrieve env d).RetrievalsByStudyUID.find? u =
        (createRetrieve env.ServerNodeWidget.parameters u q d1).RetrievalsByStudyUID.find? u := by
    rw [hloop]
    have hX : (createRetrieve env.ServerNodeWidget.parameters u q d1).nextRetrieve =
        d1.nextRetrieve + 1 := by rw [hstep]
    cases hthrow : env.throws u with
    | true =>
      rw [retrieveLoop_cons_fail env _ u post d1 q hq1 hthrow]
      generalize createRetrieve env.ServerNodeWidget.parameters u q d1 = X
      exact ⟨[Event.logError (qstr "Retrieve failed")], rfl, rfl, rfl⟩
    | false =>
      rw [retrieveLoop_cons_ok env _ u post d1 q hq1 hthrow]
      generalize createRetrieve env.ServerNodeWidget.parameters u q d1 = X at hX ⊢
      obtain ⟨f1, ⟨t, f2⟩, f3⟩ := retrieveLoop_frame env env.ServerNodeWidget.parameters post
        ((X.emit (Event.retrieveStudy d1.nextRetrieve u)).emit
          (Event.logInfo (qstr "Retrieve success")))
      refine ⟨[Event.logInfo (qstr "Retrieve success")] ++ t, ?_, ?_, ?_⟩
      · rw [f2]
        simp only [emit, List.append_assoc]
      · rw [f1 d1.nextRetrieve (by simp only [emit]; omega)]
        rfl
      · rw [f3 u hupost]
        rfl
  obtain ⟨t, g1, g2, g3⟩ := hfinal
  rw [hstep] at g1 g2 g3
  simp only [emit, write_same] at g1 g2 g3
  rw [S.nextRetrieve] at g2
  refine ⟨q, hq, ?_, ?_, ?_, ?_⟩
  · rw [g1]
    simp only [retrieveReports_append, List.mem_append]
    left; right
    rw [S.nextRetrieve]
    simp [retrieveReports]
  · rw [g3, QMap.find?_insert, if_pos rfl, S.nextRetrieve]
  · rw [g2, S.queryHeap, S.database]
  · intro envQ d0 done rest k s hd hopen hsplit hrun hstop hk hqk
    have Q := processQuery_spec envQ d0 done rest hopen hsplit hrun hstop
    have := Q.heap_new s k hk
    rw [hd, hqk, this]
    exact ⟨rfl, rfl, rfl, rfl⟩

/-- C4 on the batch `s1`, `s2`, `s3` for the study `s2`. -/
theorem processRetrieve_connection_parameters_witness :
    Example.threeStudies.QueriesByStudyUID.keys = [qstr "s1"] ++ qstr "s2" :: [qstr "s3"] ∧
      ∃ q, Example.threeStudies.QueriesByStudyUID.find? (qstr "s2") = some q ∧
        RetrieveReport.attempted (Example.threeStudies.nextRetrieve + [qstr "s1"].length)
            (qstr "s2") ∈
          retrieveReports (processRetrieve (Example.retrieveRun [])
            Example.threeStudies).trace ∧
        (processRetrieve (Example.retrieveRun []) Example.threeStudies).RetrievalsByStudyUID.find?
            (qstr "s2") =
          some (Example.threeStudies.nextRetrieve + [qstr "s1"].length) ∧
        (processRetrieve (Example.retrieveRun []) Example.threeStudies).retrieveHeap
            (Example.threeStudies.nextRetrieve + [qstr "s1"].length) =
          { RetrieveDatabase := Example.threeStudies.RetrieveDatabase,
            CallingAETitle := (Example.threeStudies.queryHeap q).CallingAETitle,
            CalledAETitle := (Example.threeStudies.queryHeap q).CalledAETitle,
            CalledPort := (Example.threeStudies.queryHeap q).Port,
            Host := (Example.threeStudies.queryHeap q).Host,
            MoveDestinationAETitle :=
              (Example.retrieveRun []).ServerNodeWidget.parameters.StorageAETitle,
            CallingPort := (Example.retrieveRun []).ServerNodeWidget.parameters.StoragePort } ∧
        ∀ (envQ : QueryRun) (d0 : ctkDICOMQueryRetrieveWidgetPrivate)
          (done rest : List QString) (k : Nat) (s : QString),
          Example.threeStudies = processQuery envQ d0 → envQ.openDatabaseThrows = false →
          envQ.ServerNodeWidget.checkedNodes = done ++ rest →
          (∀ j, j < done.length → envQ.wasCanceled j = false) →
          (rest = [] ∨ envQ.wasCanceled done.length = true) →
          done[k]? = some s → q = d0.nextQuery + k →
          (Example.threeStudies.queryHeap q).CallingAETitle =
              envQ.ServerNodeWidget.callingAETitle ∧
            (Example.threeStudies.queryHeap q).CalledAETitle =
              (envQ.ServerNodeWidget.nodeParameters s).AETitle ∧
            (Example.threeStudies.queryHeap q).Host =
              (envQ.ServerNodeWidget.nodeParameters s).Address ∧
            (Example.threeStudies.queryHeap q).Port =
              (envQ.ServerNodeWidget.nodeParameters s).Port :=
  ⟨by decide,
    processRetrieve_connection_parameters (Example.retrieveRun []) Example.threeStudies
      [qstr "s1"] [qstr "s3"] (qstr "s2") (by decide) (fun _ _ => rfl)⟩

end ctkDICOMQueryRetrieveWidget

end CTK

/-! ## Properties of `onQueryProgressChanged` -/

namespace CTK

namespace ctkDICOMQueryRetrieveWidget

end ctkDICOMQueryRetrieveWidget

end CTK
